import Mathlib

/-!
Shallow embedding of `aiops_log_anomaly_detector.py`: log parsing,
feature engineering, isolation-forest anomaly detection, and the main
pipeline wiring, together with theorems settling the specification
claims about them.
-/

namespace AIOps

/-! ### Python string primitives used by the source -/

/-- Python whitespace characters stripped by `str.strip()`. -/
def pyIsSpace (c : Char) : Bool :=
  c = ' ' || c = '\t' || c = '\n' || c = '\x0d' || c = '\x0b' || c = '\x0c'

/-- `str.strip()`: remove leading and trailing whitespace. -/
def pyStrip (s : List Char) : List Char :=
  ((s.dropWhile pyIsSpace).reverse.dropWhile pyIsSpace).reverse

/-- Split off the segment before the first space character, returning it
together with the remainder after that space; `none` when no space occurs. -/
def splitFirst : List Char → Option (List Char × List Char)
  | [] => none
  | c :: cs =>
    if c = ' ' then some ([], cs)
    else match splitFirst cs with
      | none => none
      | some (pre, post) => some (c :: pre, post)

/-- Python `s.split(" ", maxsplit)`: split on each single space character,
at most `maxsplit` times, the last field absorbing the remaining text. -/
def splitLimit : Nat → List Char → List (List Char)
  | 0, s => [s]
  | m + 1, s =>
    match splitFirst s with
    | none => [s]
    | some (pre, post) => pre :: splitLimit m post

/-! ### Timestamps -/

/-- A parsed timestamp value, the result of coercing the
`<date> <time>` string of a log line. -/
structure Timestamp where
  year : Nat
  month : Nat
  day : Nat
  hour : Nat
  minute : Nat
  second : Nat
deriving DecidableEq, Repr

/-- Decimal digit value of a character, `none` when not a digit. -/
def digitVal (c : Char) : Option Nat :=
  if c.isDigit then some (c.toNat - 48) else none

/-- Two-digit decimal number from two digit characters. -/
def num2 (a b : Char) : Option Nat := do
  pure ((← digitVal a) * 10 + (← digitVal b))

/-- Modelled from the spec: `pandas.to_datetime(..., errors="coerce")` is
library code not in the repository; per the spec the timestamp string has
the external shape `<date> <time>`, concretely `YYYY-MM-DD HH:MM:SS`, and
unparseable strings coerce to a missing value (`none`) so the row is
dropped. -/
def toDatetime (s : String) : Option Timestamp :=
  match s.data with
  | [y1, y2, y3, y4, c1, m1, m2, c2, d1, d2, c3, h1, h2, c4, i1, i2, c5, s1, s2] =>
    if c1 = '-' && c2 = '-' && c3 = ' ' && c4 = ':' && c5 = ':' then do
      let y ← do pure ((← num2 y1 y2) * 100 + (← num2 y3 y4))
      let mo ← num2 m1 m2
      let d ← num2 d1 d2
      let h ← num2 h1 h2
      let mi ← num2 i1 i2
      let se ← num2 s1 s2
      if 1 ≤ mo && mo ≤ 12 && 1 ≤ d && d ≤ 31 && h ≤ 23 && mi ≤ 59 && se ≤ 59 then
        pure ⟨y, mo, d, h, mi, se⟩
      else none
    else none
  | _ => none

/-! ### Log parsing (`parse_logs`) -/

/-- A surviving structured log record: the row of the parsed DataFrame. -/
structure LogRecord where
  timestamp : Timestamp
  level : String
  message : String
deriving DecidableEq, Repr

/-- The timestamp string formed from the first two space-split fields of a
line, as `parts[0] + " " + parts[1]` in the source. -/
def firstTwoFields (log : String) : String :=
  match splitLimit 3 (pyStrip log.data) with
  | p0 :: p1 :: _ => ⟨p0 ++ ' ' :: p1⟩
  | _ => ""

/-- One iteration of the `parse_logs` loop combined with the subsequent
timestamp coercion and `dropna`: a raw line yields at most one record. -/
def parseLine (log : String) : Option LogRecord :=
  match splitLimit 3 (pyStrip log.data) with
  | [p0, p1, p2, p3] =>
    match toDatetime ⟨p0 ++ ' ' :: p1⟩ with
    | none => none
    | some t => some ⟨t, ⟨p2⟩, ⟨p3⟩⟩
  | _ => none

/-- `parse_logs`: parse raw lines into records, silently dropping lines
with fewer than four space-split fields or an uncoercible timestamp. -/
def parse_logs (logs : List String) : List LogRecord :=
  logs.filterMap parseLine

/-! ### Feature engineering (`feature_engineering`) -/

/-- The fixed level-to-score lookup table `level_mapping` of the source. -/
def level_mapping (level : String) : Option ℚ :=
  if level = "INFO" then some 1
  else if level = "WARNING" then some 2
  else if level = "ERROR" then some 3
  else if level = "CRITICAL" then some 4
  else none

/-- `df["level"].map(level_mapping).fillna(0)`. -/
def levelScoreOf (level : String) : ℚ :=
  (level_mapping level).getD 0

/-- A DataFrame row after `feature_engineering`: the parser-produced
fields plus the two added numeric columns. -/
structure FRow where
  record : LogRecord
  level_score : ℚ
  message_length : Nat
deriving DecidableEq, Repr

/-- `feature_engineering`: add `level_score` and `message_length` columns
to every row, leaving the parsed fields unchanged. -/
def feature_engineering (df : List LogRecord) : List FRow :=
  df.map fun r => ⟨r, levelScoreOf r.level, r.message.length⟩

/-! ### Isolation forest (modelled from the spec)

`sklearn.ensemble.IsolationForest` is library code not in the repository;
the detector below is modelled from the algorithm-level design of the
spec: an ensemble of randomized partitioning trees over the two features,
path-length scoring normalized by the average-path-length formula, a
score `s(x) = 2 ^ (-h(x)/c(n))`, and fixed-contamination thresholding
that flags the top `round(contamination * n)` points by score (stable
tie-break by input order). Randomness is an explicit deterministically
seeded generator, as the source fixes `random_state=42`. -/

/-- A feature vector: `(level_score, message_length)`. -/
abbrev FVec := ℚ × ℚ

/-- Modelled from the spec: the pseudo-random source for tree
construction, a fixed linear congruential step on a `Nat` state. -/
def lcgNext (s : Nat) : Nat :=
  (1103515245 * s + 12345) % 2 ^ 31

/-- Project a feature vector on one of the two dimensions. -/
def proj (d : Bool) (v : FVec) : ℚ :=
  if d then v.2 else v.1

/-- A node of an isolation tree: an external node records the size of the
terminal partition. -/
inductive ITree where
  | leaf (size : Nat)
  | node (dim : Bool) (thr : ℚ) (l r : ITree)
deriving DecidableEq, Repr

/-- The harmonic-number average-path-length formula
`c(m) = 2 H(m-1) - 2 (m-1)/m`. -/
def cFun (m : Nat) : ℚ :=
  2 * harmonic (m - 1) - 2 * ((m : ℚ) - 1) / m

/-- Path-length extension for an undersized terminal partition of size
`m`: `c(m)` for `m ≥ 2`, and `0` for a partition of at most one point. -/
def cExt (m : Nat) : ℚ :=
  if m ≤ 1 then 0 else cFun m

/-- Normalization constant `c(n)` for the score: `1` for `n ≤ 1`. -/
def cNorm (n : Nat) : ℚ :=
  if n ≤ 1 then 1 else cFun n

/-- Minimum of the projections of a nonempty point list on dimension `d`. -/
def dimMin (d : Bool) (pts : List FVec) : ℚ :=
  (pts.map (proj d)).foldr min ((pts.map (proj d)).headD 0)

/-- Maximum of the projections of a nonempty point list on dimension `d`. -/
def dimMax (d : Bool) (pts : List FVec) : ℚ :=
  (pts.map (proj d)).foldr max ((pts.map (proj d)).headD 0)

/-- Modelled from the spec: isolation-tree construction. Recursively pick
a random dimension and a random threshold within the observed range of
that dimension, partition, and recurse; a branch stops when it holds at
most one point or the depth budget `fuel` is exhausted. Returns the tree
and the advanced generator state. -/
def buildTree : Nat → Nat → List FVec → ITree × Nat
  | 0, s, pts => (.leaf pts.length, s)
  | fuel + 1, s, pts =>
    if pts.length ≤ 1 then (.leaf pts.length, s)
    else
      let s1 := lcgNext s
      let d : Bool := s1 % 2 == 1
      let s2 := lcgNext s1
      let lo := dimMin d pts
      let hi := dimMax d pts
      let thr := lo + ((s2 % 65536 : Nat) : ℚ) / 65536 * (hi - lo)
      let ls := pts.filter fun v => proj d v < thr
      let rs := pts.filter fun v => ¬ proj d v < thr
      let (tl, s3) := buildTree fuel s2 ls
      let (tr, s4) := buildTree fuel s3 rs
      (.node d thr tl tr, s4)

/-- Path length of a point in a tree: edges traversed to the terminal
partition, extended by `cExt` at the partition reached. -/
def pathLen : ITree → FVec → ℚ
  | .leaf m, _ => cExt m
  | .node d t l r, v => 1 + (if proj d v < t then pathLen l v else pathLen r v)

/-- The ensemble size, a tunable constant of the model. -/
def numTrees : Nat := 8

/-- Depth budget `ceil(log2 n)` for a (sub)sample of size `n`. -/
def maxDepth (n : Nat) : Nat := Nat.clog 2 n

/-- Build `t` trees, threading the generator state through the ensemble. -/
def buildForest : Nat → Nat → Nat → List FVec → List ITree
  | 0, _, _, _ => []
  | t + 1, fuel, s, pts =>
    let (tr, s1) := buildTree fuel s pts
    tr :: buildForest t fuel s1 pts

/-- Average path length of a point across the ensemble. -/
def avgPathLen (trees : List ITree) (v : FVec) : ℚ :=
  (trees.map fun t => pathLen t v).sum / trees.length

/-- The ensemble grown for one detection run. -/
def iforestTrees (seed : Nat) (pts : List FVec) : List ITree :=
  buildForest numTrees (maxDepth pts.length) seed pts

/-- Average path length `h(x)` of every input point, in input order. -/
def iforestH (seed : Nat) (pts : List FVec) : List ℚ :=
  pts.map (avgPathLen (iforestTrees seed pts))

/-- Anomaly score `s(x) = 2 ^ (-h(x) / c(n))` of the `i`-th input point. -/
noncomputable def iforestScore (seed : Nat) (pts : List FVec) (i : Nat) : ℝ :=
  2 ^ (-((((iforestH seed pts).getD i 0 : ℚ) : ℝ) / ((cNorm pts.length : ℚ) : ℝ)))

/-- Stable ranking order on point indices: smaller average path length
first (that is, larger score first), ties broken by input position. -/
def rankOrder (hs : List ℚ) (i j : Nat) : Prop :=
  hs.getD i 0 < hs.getD j 0 ∨ (hs.getD i 0 = hs.getD j 0 ∧ i ≤ j)

instance rankOrder.decRel (hs : List ℚ) : DecidableRel (rankOrder hs) := fun i j => by
  unfold rankOrder
  infer_instance

/-- The number of points flagged: `round(contamination * n)`. -/
def kOf (c : ℚ) (n : Nat) : Nat := (round (c * n)).toNat

/-- Indices of all points, most isolable first (stable). -/
def rankedIndices (hs : List ℚ) : List Nat :=
  List.insertionSort (rankOrder hs) (List.range hs.length)

/-- Modelled from the spec: fixed-contamination thresholding. The top
`round(contamination * n)` indices by score are flagged. -/
def anomalyIndices (c : ℚ) (hs : List ℚ) : List Nat :=
  (rankedIndices hs).take (kOf c hs.length)

/-- Modelled from the spec: `IsolationForest(...).fit_predict`, returning
`-1` for a flagged point and `1` otherwise, one output per input point in
input order (`-1` encodes Anomaly, as the caller at line 66 decodes). -/
def fit_predict (seed : Nat) (c : ℚ) (pts : List FVec) : List ℤ :=
  (List.range pts.length).map fun i =>
    if i ∈ anomalyIndices c (iforestH seed pts) then -1 else 1

/-! ### Anomaly detection (`detect_anomalies`) -/

/-- The readable label written into the `is_anomaly` column at line 66:
`Anomaly` when the prediction is `-1`, `Normal` otherwise. -/
inductive Label where
  | anomaly
  | normal
deriving DecidableEq, Repr

/-- A DataFrame row after `detect_anomalies`: the feature row plus the
added `anomaly` and `is_anomaly` columns. -/
structure ARow where
  frow : FRow
  anomaly : ℤ
  is_anomaly : Label
deriving DecidableEq, Repr

/-- The feature matrix `df[["level_score", "message_length"]]`. -/
def featureMatrix (df : List FRow) : List FVec :=
  df.map fun r => (r.level_score, (r.message_length : ℚ))

/-- `detect_anomalies` with the random state exposed as a parameter:
fit and predict on the two feature columns, store the raw prediction in
`anomaly`, and decode `-1` into the Anomaly label. -/
def detectAnomaliesSeeded (seed : Nat) (df : List FRow) (c : ℚ) : List ARow :=
  let preds := fit_predict seed c (featureMatrix df)
  df.zipWith (fun r p => ⟨r, p, if p = -1 then .anomaly else .normal⟩) preds

/-- `detect_anomalies`: the source fixes `random_state=42`. -/
def detect_anomalies (df : List FRow) (c : ℚ) : List ARow :=
  detectAnomaliesSeeded 42 df c

/-! ### Pipeline wiring (`read_logs` and `main`) -/

/-- Observable outcome of one `main` run. File reading is the one
peripheral effect; it is represented by its result, `none` when the file
is missing or unreadable (the source exits via `sys.exit(1)` from
`read_logs` for both exception paths, printing a message naming the
file). -/
inductive MainOutcome where
  | fileError (path : String)
  | noValidEntries
  | noAnomalies
  | anomalies (rows : List ARow)
deriving DecidableEq, Repr

/-- Process exit status of an outcome: `sys.exit(1)` on a file error,
`sys.exit(0)` on no valid entries, and a normal return (status 0)
otherwise. -/
def exitCode : MainOutcome → Nat
  | .fileError _ => 1
  | _ => 0

/-- `main`, with the file system represented by the read result for the
requested path: parse, short-circuit on an empty DataFrame, engineer
features, detect anomalies at contamination `0.1`, and report either the
filtered anomaly rows or a no-anomalies message. -/
def main (file_path : String) (readResult : Option (List String)) : MainOutcome :=
  match readResult with
  | none => .fileError file_path
  | some logs =>
    let df := parse_logs logs
    if df.isEmpty then .noValidEntries
    else
      let df2 := detect_anomalies (feature_engineering df) (1 / 10)
      let anoms := df2.filter fun r => r.is_anomaly = .anomaly
      if anoms.isEmpty then .noAnomalies else .anomalies anoms

/-! ### Concrete values used in examples and counterexamples -/

/-- A line is valid when the parser accepts it: at least four space-split
fields and a coercible timestamp. -/
def validLine (log : String) : Bool :=
  (parseLine log).isSome

/-- A concrete well-formed record used in concrete instantiations. -/
def exRecord (lvl msg : String) : LogRecord :=
  ⟨⟨2024, 1, 15, 10, 23, 1⟩, lvl, msg⟩

/-- A concrete five-row feature DataFrame: four similar points and one
far outlier, as fed to the detector in the counterexample run. -/
def exFRows : List FRow :=
  [⟨exRecord "INFO" "aaaaa", 1, 5⟩,
   ⟨exRecord "INFO" "aaaaaa", 1, 6⟩,
   ⟨exRecord "INFO" "bbbbb", 1, 5⟩,
   ⟨exRecord "CRITICAL" "cccccccccccccccccccccccccccccccccccccccccccccccccc", 4, 50⟩,
   ⟨exRecord "INFO" "ddddddd", 1, 7⟩]

/-! ### Helper lemmas -/

theorem splitLimit_length_le (m : Nat) : ∀ s, (splitLimit m s).length ≤ m + 1 := by
  induction m with
  | zero => intro s; simp [splitLimit]
  | succ m ih =>
    intro s
    unfold splitLimit
    cases h : splitFirst s with
    | none => simp
    | some pr =>
      obtain ⟨pre, post⟩ := pr
      simpa using Nat.succ_le_succ (ih post)

theorem parseLine_eq_none_of_not4 (log : String)
    (h : (splitLimit 3 (pyStrip log.data)).length ≠ 4) : parseLine log = none := by
  unfold parseLine
  rcases hl : splitLimit 3 (pyStrip log.data) with _ | ⟨a, _ | ⟨b, _ | ⟨c, _ | ⟨d, _ | ⟨e, tl⟩⟩⟩⟩⟩ <;>
    simp_all

theorem parseLine_eq_none_of_bad_ts (log : String)
    (h : toDatetime (firstTwoFields log) = none) : parseLine log = none := by
  unfold firstTwoFields at h
  unfold parseLine
  rcases hl : splitLimit 3 (pyStrip log.data) with _ | ⟨a, _ | ⟨b, _ | ⟨c, _ | ⟨d, _ | ⟨e, tl⟩⟩⟩⟩⟩ <;>
    simp_all

theorem length_filterMap_of_isSome {α β : Type} (f : α → Option β) :
    ∀ l : List α, (∀ a ∈ l, (f a).isSome) → (l.filterMap f).length = l.length := by
  intro l
  induction l with
  | nil => simp
  | cons a t ih =>
    intro h
    have ha := h a (by simp)
    rcases hfa : f a with _ | b
    · rw [hfa] at ha; simp at ha
    · simp [List.filterMap_cons, hfa, ih fun x hx => h x (by simp [hx])]

theorem zipWith_map_left_eq {α β γ : Type} (f : α → β → γ) (g : γ → α)
    (hf : ∀ a b, g (f a b) = a) :
    ∀ (as : List α) (bs : List β), as.length ≤ bs.length →
      (List.zipWith f as bs).map g = as := by
  intro as
  induction as with
  | nil => intro bs _; simp
  | cons a t ih =>
    intro bs hlen
    cases bs with
    | nil => simp at hlen
    | cons b bt =>
      simp only [List.zipWith_cons_cons, List.map_cons, hf]
      rw [ih bt (by simpa using hlen)]

theorem zipWith_map_right_eq {α β γ : Type} (f : α → β → γ) (g : γ → β)
    (hf : ∀ a b, g (f a b) = b) :
    ∀ (as : List α) (bs : List β), bs.length ≤ as.length →
      (List.zipWith f as bs).map g = bs := by
  intro as
  induction as with
  | nil =>
    intro bs hlen
    cases bs with
    | nil => simp
    | cons b bt => simp at hlen
  | cons a t ih =>
    intro bs hlen
    cases bs with
    | nil => simp
    | cons b bt =>
      simp only [List.zipWith_cons_cons, List.map_cons, hf]
      rw [ih bt (by simpa using hlen)]

theorem mem_zipWith_strong {α β γ : Type} {f : α → β → γ} :
    ∀ {as : List α} {bs : List β} {c : γ}, c ∈ List.zipWith f as bs →
      ∃ a ∈ as, ∃ b ∈ bs, c = f a b := by
  intro as
  induction as with
  | nil => intro bs c h; simp at h
  | cons a t ih =>
    intro bs c h
    cases bs with
    | nil => simp at h
    | cons b bt =>
      rcases (by simpa using h : c = f a b ∨ c ∈ List.zipWith f t bt) with h1 | h1
      · exact ⟨a, by simp, b, by simp, h1⟩
      · obtain ⟨x, hx, y, hy, hc⟩ := ih h1
        exact ⟨x, by simp [hx], y, by simp [hy], hc⟩

theorem length_featureMatrix (df : List FRow) : (featureMatrix df).length = df.length := by
  simp [featureMatrix]

theorem length_fit_predict (seed : Nat) (c : ℚ) (pts : List FVec) :
    (fit_predict seed c pts).length = pts.length := by
  simp [fit_predict]

theorem length_iforestH (seed : Nat) (pts : List FVec) :
    (iforestH seed pts).length = pts.length := by
  simp [iforestH]

theorem length_detectAnomaliesSeeded (seed : Nat) (df : List FRow) (c : ℚ) :
    (detectAnomaliesSeeded seed df c).length = df.length := by
  simp [detectAnomaliesSeeded, List.length_zipWith, length_fit_predict, length_featureMatrix]

theorem mem_fit_predict (seed : Nat) (c : ℚ) (pts : List FVec) :
    ∀ p ∈ fit_predict seed c pts, p = -1 ∨ p = 1 := by
  intro p hp
  simp only [fit_predict, List.mem_map] at hp
  obtain ⟨i, _, hi⟩ := hp
  by_cases h : i ∈ anomalyIndices c (iforestH seed pts) <;> simp [h] at hi <;> omega

theorem one_le_harmonic : ∀ m : Nat, 1 ≤ m → 1 ≤ harmonic m := by
  intro m
  induction m with
  | zero => intro h; omega
  | succ k ih =>
    intro _
    rw [harmonic_succ]
    rcases Nat.eq_zero_or_pos k with hk | hk
    · subst hk; norm_num [harmonic_zero]
    · have h1 := ih hk
      have h2 : (0:ℚ) ≤ (↑(k + 1))⁻¹ := by positivity
      linarith

theorem cFun_pos (m : Nat) (hm : 2 ≤ m) : 0 < cFun m := by
  unfold cFun
  have hm0 : (0:ℚ) < m := by exact_mod_cast Nat.lt_of_lt_of_le (by omega) hm
  have h1 : 1 ≤ harmonic (m - 1) := one_le_harmonic (m - 1) (by omega)
  have h2 : ((m:ℚ) - 1) / m < 1 := by
    rw [div_lt_one hm0]; linarith
  have h3 : 2 * ((m:ℚ) - 1) / m = 2 * (((m:ℚ) - 1) / m) := by ring
  linarith

theorem cExt_nonneg (m : Nat) : 0 ≤ cExt m := by
  unfold cExt
  split
  · exact le_refl 0
  · exact (cFun_pos m (by omega)).le

theorem cNorm_pos (n : Nat) : 0 < cNorm n := by
  unfold cNorm
  split
  · exact one_pos
  · exact cFun_pos n (by omega)

theorem pathLen_nonneg : ∀ (t : ITree) (v : FVec), 0 ≤ pathLen t v := by
  intro t
  induction t with
  | leaf m => intro v; exact cExt_nonneg m
  | node d thr l r ihl ihr =>
    intro v
    unfold pathLen
    split
    · have := ihl v; linarith
    · have := ihr v; linarith

theorem avgPathLen_nonneg (trees : List ITree) (v : FVec) : 0 ≤ avgPathLen trees v := by
  unfold avgPathLen
  apply div_nonneg
  · apply List.sum_nonneg
    intro x hx
    obtain ⟨t, _, ht⟩ := List.mem_map.mp hx
    exact ht ▸ pathLen_nonneg t v
  · exact Nat.cast_nonneg _

theorem iforestH_getD_nonneg (seed : Nat) (pts : List FVec) (i : Nat) :
    0 ≤ (iforestH seed pts).getD i 0 := by
  rw [List.getD_eq_getElem?_getD]
  rcases h : (iforestH seed pts)[i]? with _ | q
  · simp
  · have hq : q ∈ iforestH seed pts := List.getElem?_mem h
    obtain ⟨v, _, hv⟩ := List.mem_map.mp hq
    simpa using hv ▸ avgPathLen_nonneg (iforestTrees seed pts) v

theorem iforestScore_pos (seed : Nat) (pts : List FVec) (i : Nat) :
    0 < iforestScore seed pts i :=
  Real.rpow_pos_of_pos two_pos _

theorem iforestScore_le_one (seed : Nat) (pts : List FVec) (i : Nat) :
    iforestScore seed pts i ≤ 1 := by
  apply Real.rpow_le_one_of_one_le_of_nonpos one_le_two
  have hh : (0:ℝ) ≤ ((iforestH seed pts).getD i 0 : ℚ) := by
    exact_mod_cast iforestH_getD_nonneg seed pts i
  have hc : (0:ℝ) < ((cNorm pts.length : ℚ) : ℝ) := by
    exact_mod_cast cNorm_pos pts.length
  have : (0:ℝ) ≤ (((iforestH seed pts).getD i 0 : ℚ) : ℝ) / ((cNorm pts.length : ℚ) : ℝ) :=
    div_nonneg hh hc.le
  linarith

theorem iforestScore_antitone (seed : Nat) (pts : List FVec) {i j : Nat}
    (h : (iforestH seed pts).getD i 0 ≤ (iforestH seed pts).getD j 0) :
    iforestScore seed pts j ≤ iforestScore seed pts i := by
  unfold iforestScore
  rw [Real.rpow_le_rpow_left_iff one_lt_two, neg_le_neg_iff]
  have hc : (0:ℝ) < ((cNorm pts.length : ℚ) : ℝ) := by
    exact_mod_cast cNorm_pos pts.length
  have hij : (((iforestH seed pts).getD i 0 : ℚ) : ℝ) ≤ ((iforestH seed pts).getD j 0 : ℚ) := by
    exact_mod_cast h
  exact (div_le_div_iff_of_pos_right hc).mpr hij

instance rankOrder.isTrans (hs : List ℚ) : IsTrans Nat (rankOrder hs) := by
  constructor
  intro a b c hab hbc
  rcases hab with h1 | ⟨h1, h2⟩ <;> rcases hbc with h3 | ⟨h3, h4⟩
  · exact Or.inl (h1.trans h3)
  · exact Or.inl (by rw [← h3]; exact h1)
  · exact Or.inl (by rw [h1]; exact h3)
  · exact Or.inr ⟨h1.trans h3, h2.trans h4⟩

instance rankOrder.isTotal (hs : List ℚ) : IsTotal Nat (rankOrder hs) := by
  constructor
  intro a b
  rcases lt_trichotomy (hs.getD a 0) (hs.getD b 0) with h | h | h
  · exact Or.inl (Or.inl h)
  · rcases Nat.le_total a b with hab | hab
    · exact Or.inl (Or.inr ⟨h, hab⟩)
    · exact Or.inr (Or.inr ⟨h.symm, hab⟩)
  · exact Or.inr (Or.inl h)

theorem rankedIndices_perm (hs : List ℚ) :
    (rankedIndices hs).Perm (List.range hs.length) :=
  List.perm_insertionSort _ _

theorem rankedIndices_sorted (hs : List ℚ) :
    List.Sorted (rankOrder hs) (rankedIndices hs) :=
  List.sorted_insertionSort _ _

theorem rankedIndices_nodup (hs : List ℚ) : (rankedIndices hs).Nodup :=
  (rankedIndices_perm hs).nodup_iff.mpr (List.nodup_range _)

theorem rankedIndices_length (hs : List ℚ) : (rankedIndices hs).length = hs.length :=
  (rankedIndices_perm hs).length_eq.trans (List.length_range _)

theorem kOf_le (c : ℚ) (n : Nat) (hc : c ≤ 1) : kOf c n ≤ n := by
  unfold kOf
  rw [Int.toNat_le]
  have h1 : c * n ≤ (n:ℚ) := by
    have hn : (0:ℚ) ≤ n := Nat.cast_nonneg n
    nlinarith
  calc round (c * (n:ℚ)) ≤ round ((n:ℚ)) := by
        rw [round_eq, round_eq]
        exact Int.floor_le_floor (by linarith)
    _ = n := round_natCast n

theorem anomalyIndices_sublist_spec (c : ℚ) (hs : List ℚ) :
    anomalyIndices c hs = (rankedIndices hs).take (kOf c hs.length) := rfl

theorem fit_predict_countP (seed : Nat) (c : ℚ) (pts : List FVec)
    (hk : kOf c pts.length ≤ pts.length) :
    (fit_predict seed c pts).countP (fun p => p = -1) = kOf c pts.length := by
  set hs := iforestH seed pts with hhs
  have hlen : hs.length = pts.length := length_iforestH seed pts
  set flags := anomalyIndices c hs with hflags
  unfold fit_predict
  rw [List.countP_map]
  have hfun : ((fun p : ℤ => decide (p = -1)) ∘
      (fun i => if i ∈ anomalyIndices c (iforestH seed pts) then (-1:ℤ) else 1)) =
      fun i => decide (i ∈ flags) := by
    funext i
    by_cases h : i ∈ flags
    · simp [Function.comp, ← hhs, ← hflags, h]
    · simp [Function.comp, ← hhs, ← hflags, h]
  rw [hfun]
  have hperm : (rankedIndices hs).Perm (List.range pts.length) := by
    rw [← hlen]; exact rankedIndices_perm hs
  rw [← hperm.countP_eq]
  have hsplit := List.countP_append (fun i => decide (i ∈ flags))
    ((rankedIndices hs).take (kOf c hs.length)) ((rankedIndices hs).drop (kOf c hs.length))
  rw [List.take_append_drop] at hsplit
  rw [hsplit]
  have htake : List.countP (fun i => decide (i ∈ flags))
      ((rankedIndices hs).take (kOf c hs.length)) =
      ((rankedIndices hs).take (kOf c hs.length)).length := by
    apply List.countP_eq_length.mpr
    intro a ha
    simpa [hflags, anomalyIndices_sublist_spec] using ha
  have hnd : (((rankedIndices hs).take (kOf c hs.length)) ++
      ((rankedIndices hs).drop (kOf c hs.length))).Nodup := by
    rw [List.take_append_drop]; exact rankedIndices_nodup hs
  obtain ⟨-, -, hdisj⟩ := List.nodup_append.mp hnd
  have hdrop : List.countP (fun i => decide (i ∈ flags))
      ((rankedIndices hs).drop (kOf c hs.length)) = 0 := by
    apply List.countP_eq_zero.mpr
    intro a ha
    simp only [decide_eq_true_eq]
    intro hmem
    exact hdisj (by simpa [hflags, anomalyIndices_sublist_spec] using hmem) ha
  rw [htake, hdrop, List.length_take, rankedIndices_length, hlen]
  simpa using Nat.min_eq_left hk

theorem fit_predict_getD (seed : Nat) (c : ℚ) (pts : List FVec) (m : Nat)
    (hm : m < pts.length) :
    (fit_predict seed c pts).getD m 1 =
      (if m ∈ anomalyIndices c (iforestH seed pts) then -1 else 1) := by
  unfold fit_predict
  rw [List.getD_eq_getElem?_getD, List.getElem?_map, List.getElem?_range hm]
  simp

theorem fit_predict_flag_score (seed : Nat) (c : ℚ) (pts : List FVec) {i j : Nat}
    (hi : i < pts.length) (hj : j < pts.length)
    (hfi : (fit_predict seed c pts).getD i 1 = -1)
    (hfj : (fit_predict seed c pts).getD j 1 ≠ -1) :
    iforestScore seed pts j ≤ iforestScore seed pts i := by
  set hs := iforestH seed pts with hhs
  have hlen : hs.length = pts.length := length_iforestH seed pts
  rw [fit_predict_getD seed c pts i hi] at hfi
  rw [fit_predict_getD seed c pts j hj] at hfj
  have hiflag : i ∈ anomalyIndices c hs := by
    by_contra h; rw [← hhs] at hfi; simp [h] at hfi
  have hjflag : j ∉ anomalyIndices c hs := by
    intro h; rw [← hhs] at hfj; simp [h] at hfj
  have hjr : j ∈ rankedIndices hs := by
    rw [(rankedIndices_perm hs).mem_iff, List.mem_range, hlen]; exact hj
  have hsplit2 : (rankedIndices hs).take (kOf c hs.length) ++
      (rankedIndices hs).drop (kOf c hs.length) = rankedIndices hs :=
    List.take_append_drop _ _
  have hjdrop : j ∈ (rankedIndices hs).drop (kOf c hs.length) := by
    rw [← hsplit2] at hjr
    rcases List.mem_append.mp hjr with h | h
    · exact absurd (by simpa [anomalyIndices_sublist_spec] using h) hjflag
    · exact h
  have hitake : i ∈ (rankedIndices hs).take (kOf c hs.length) := by
    simpa [anomalyIndices_sublist_spec] using hiflag
  have hpair : List.Pairwise (rankOrder hs)
      (((rankedIndices hs).take (kOf c hs.length)) ++
       ((rankedIndices hs).drop (kOf c hs.length))) := by
    rw [List.take_append_drop]; exact rankedIndices_sorted hs
  have hrel : rankOrder hs i j := (List.pairwise_append.mp hpair).2.2 i hitake j hjdrop
  have hle : hs.getD i 0 ≤ hs.getD j 0 := by
    rcases hrel with h | ⟨h, -⟩
    · exact h.le
    · exact h.le
  exact iforestScore_antitone seed pts hle

theorem feature_engineering_map_record (df : List LogRecord) :
    (feature_engineering df).map FRow.record = df := by
  unfold feature_engineering
  rw [List.map_map]
  have h : (FRow.record ∘ fun r : LogRecord =>
      (⟨r, levelScoreOf r.level, r.message.length⟩ : FRow)) = id := by
    funext r; rfl
  rw [h, List.map_id]

/-! ### Claims -/

/-- C4: the parser trims whitespace and splits a line into at most 4
fields on single-space boundaries, the 4th absorbing the remaining text;
a line with fewer than 4 such fields yields zero records, and the literal
line `2024-01-15 10:23:01 INFO Service started` yields exactly one record
with level `INFO` and message `Service started`. -/
theorem claim4_parsing :
    (∀ log : String, (splitLimit 3 (pyStrip log.data)).length < 4 → parse_logs [log] = []) ∧
    (∀ log : String, (splitLimit 3 (pyStrip log.data)).length ≤ 4) ∧
    parse_logs ["2024-01-15 10:23:01 INFO Service started"] =
      [⟨⟨2024, 1, 15, 10, 23, 1⟩, "INFO", "Service started"⟩] := by
  refine ⟨?_, ?_, ?_⟩
  · intro log h
    simp [parse_logs, parseLine_eq_none_of_not4 log (by omega)]
  · intro log
    simpa using splitLimit_length_le 3 (pyStrip log.data)
  · decide

/-- C4 witness: a three-token line concretely yields zero records. -/
theorem claim4_witness :
    (splitLimit 3 (pyStrip "short line only".data)).length < 4 ∧
    parse_logs ["short line only"] = [] :=
  ⟨by decide, claim4_parsing.1 "short line only" (by decide)⟩

/-- C5: a line whose first two fields do not parse as a timestamp is
dropped silently: it produces no record, raises no error, and is retained
in no error list (the output on the surrounding lines is unchanged). -/
theorem claim5_silent_drop (pre post : List String) (line : String)
    (h : toDatetime (firstTwoFields line) = none) :
    parse_logs (pre ++ line :: post) = parse_logs (pre ++ post) := by
  unfold parse_logs
  rw [show pre ++ line :: post = pre ++ [line] ++ post by simp]
  rw [List.filterMap_append, List.filterMap_append, List.filterMap_append]
  simp [parseLine_eq_none_of_bad_ts line h]

/-- C5 witness: a concrete line with an unparseable timestamp is dropped
from between two well-formed neighbours. -/
theorem claim5_witness :
    toDatetime (firstTwoFields "9999-99-99 99:99:99 INFO bad clock") = none ∧
    parse_logs (["2024-01-15 10:23:01 INFO ok"] ++
        "9999-99-99 99:99:99 INFO bad clock" :: ["2024-01-15 10:23:02 ERROR disk"]) =
      parse_logs (["2024-01-15 10:23:01 INFO ok"] ++ ["2024-01-15 10:23:02 ERROR disk"]) :=
  ⟨by decide, claim5_silent_drop _ _ _ (by decide)⟩

/-- C6: the feature extractor maps levels by the fixed table INFO to 1,
WARNING to 2, ERROR to 3, CRITICAL to 4, anything else to 0, and sets
`message_length` to the character count of the message; a CRITICAL record
with a 37-character message yields `(4, 37)` and DEBUG scores 0. -/
theorem claim6_features :
    (∀ df : List LogRecord,
      (feature_engineering df).map FRow.level_score = df.map fun r => levelScoreOf r.level) ∧
    (∀ df : List LogRecord,
      (feature_engineering df).map FRow.message_length = df.map fun r => r.message.length) ∧
    (levelScoreOf "INFO" = 1 ∧ levelScoreOf "WARNING" = 2 ∧ levelScoreOf "ERROR" = 3 ∧
      levelScoreOf "CRITICAL" = 4 ∧ levelScoreOf "DEBUG" = 0) ∧
    (∀ lvl : String, lvl ≠ "INFO" → lvl ≠ "WARNING" → lvl ≠ "ERROR" → lvl ≠ "CRITICAL" →
      levelScoreOf lvl = 0) ∧
    feature_engineering [⟨⟨2024, 1, 15, 10, 23, 1⟩, "CRITICAL", ⟨List.replicate 37 'x'⟩⟩] =
      [⟨⟨⟨2024, 1, 15, 10, 23, 1⟩, "CRITICAL", ⟨List.replicate 37 'x'⟩⟩, 4, 37⟩] := by
  refine ⟨?_, ?_, ?_, ?_, ?_⟩
  · intro df; simp [feature_engineering]
  · intro df; simp [feature_engineering]
  · refine ⟨rfl, rfl, rfl, rfl, rfl⟩
  · intro lvl h1 h2 h3 h4
    simp [levelScoreOf, level_mapping, h1, h2, h3, h4]
  · decide

/-- C6 witness: a concrete unrecognized level scores 0. -/
theorem claim6_witness :
    (("TRACE" : String) ≠ "INFO" ∧ ("TRACE" : String) ≠ "WARNING" ∧
     ("TRACE" : String) ≠ "ERROR" ∧ ("TRACE" : String) ≠ "CRITICAL") ∧
    levelScoreOf "TRACE" = 0 :=
  ⟨⟨by decide, by decide, by decide, by decide⟩,
   claim6_features.2.2.2.1 "TRACE" (by decide) (by decide) (by decide) (by decide)⟩

/-- C7: on an input of N valid lines, the parser output, the feature
extractor output and the detector output all have length N, and each
stage is order-preserving and one-to-one: projecting the added columns
away returns the previous stage row for row. -/
theorem claim7_order (logs : List String) (c : ℚ)
    (h : ∀ l ∈ logs, validLine l = true) :
    (parse_logs logs).length = logs.length ∧
    (feature_engineering (parse_logs logs)).length = logs.length ∧
    (detect_anomalies (feature_engineering (parse_logs logs)) c).length = logs.length ∧
    (feature_engineering (parse_logs logs)).map FRow.record = parse_logs logs ∧
    (detect_anomalies (feature_engineering (parse_logs logs)) c).map ARow.frow =
      feature_engineering (parse_logs logs) := by
  have h1 : (parse_logs logs).length = logs.length :=
    length_filterMap_of_isSome parseLine logs (fun a ha => by simpa [validLine] using h a ha)
  have h2 : (feature_engineering (parse_logs logs)).length = logs.length := by
    simp [feature_engineering, h1]
  have h5 : ∀ df : List FRow, (detect_anomalies df c).map ARow.frow = df := by
    intro df
    unfold detect_anomalies detectAnomaliesSeeded
    apply zipWith_map_left_eq _ _ (fun a b => rfl)
    rw [length_fit_predict, length_featureMatrix]
  refine ⟨h1, h2, ?_, ?_, h5 _⟩
  · rw [show detect_anomalies (feature_engineering (parse_logs logs)) c =
        detectAnomaliesSeeded 42 (feature_engineering (parse_logs logs)) c from rfl,
      length_detectAnomaliesSeeded, h2]
  · exact feature_engineering_map_record _

/-- C7 witness: two concrete valid lines flow through the pipeline with
length 2 at every stage. -/
theorem claim7_witness :
    (∀ l ∈ ["2024-01-15 10:23:01 INFO Service started",
            "2024-01-15 10:23:02 ERROR Disk write failed"], validLine l = true) ∧
    ((parse_logs ["2024-01-15 10:23:01 INFO Service started",
                  "2024-01-15 10:23:02 ERROR Disk write failed"]).length = 2 ∧
     (feature_engineering (parse_logs ["2024-01-15 10:23:01 INFO Service started",
                  "2024-01-15 10:23:02 ERROR Disk write failed"])).length = 2 ∧
     (detect_anomalies (feature_engineering (parse_logs
        ["2024-01-15 10:23:01 INFO Service started",
         "2024-01-15 10:23:02 ERROR Disk write failed"])) (1 / 10)).length = 2 ∧
     (feature_engineering (parse_logs ["2024-01-15 10:23:01 INFO Service started",
                  "2024-01-15 10:23:02 ERROR Disk write failed"])).map FRow.record =
       parse_logs ["2024-01-15 10:23:01 INFO Service started",
                   "2024-01-15 10:23:02 ERROR Disk write failed"] ∧
     (detect_anomalies (feature_engineering (parse_logs
        ["2024-01-15 10:23:01 INFO Service started",
         "2024-01-15 10:23:02 ERROR Disk write failed"])) (1 / 10)).map ARow.frow =
       feature_engineering (parse_logs ["2024-01-15 10:23:01 INFO Service started",
                   "2024-01-15 10:23:02 ERROR Disk write failed"])) :=
  ⟨by decide, claim7_order _ (1 / 10) (by decide)⟩

/-- C8: a missing or unreadable file terminates with a nonzero status and
an outcome naming the file; zero valid parsed entries terminates with
status zero and the no-valid-entries outcome; otherwise the run ends with
status zero and prints either the no-anomalies message or exactly the
rows labeled Anomaly. -/
theorem claim8_exit :
    (∀ path : String, main path none = .fileError path ∧ exitCode (main path none) = 1) ∧
    (∀ path logs, parse_logs logs = [] →
      main path (some logs) = .noValidEntries ∧ exitCode (main path (some logs)) = 0) ∧
    (∀ path logs, parse_logs logs ≠ [] →
      main path (some logs) =
        (if ((detect_anomalies (feature_engineering (parse_logs logs)) (1 / 10)).filter
              fun r => r.is_anomaly = .anomaly).isEmpty
          then .noAnomalies
          else .anomalies ((detect_anomalies (feature_engineering (parse_logs logs))
              (1 / 10)).filter fun r => r.is_anomaly = .anomaly)) ∧
      exitCode (main path (some logs)) = 0) := by
  refine ⟨fun path => ⟨rfl, rfl⟩, ?_, ?_⟩
  · intro path logs h
    have he : (parse_logs logs).isEmpty = true := by simp [List.isEmpty_iff, h]
    exact ⟨by simp [main, he], by simp [main, he, exitCode]⟩
  · intro path logs h
    have he : (parse_logs logs).isEmpty = false := by
      simp [List.isEmpty_iff, h]
    have hmain : main path (some logs) =
        (if ((detect_anomalies (feature_engineering (parse_logs logs)) (1 / 10)).filter
              fun r => r.is_anomaly = Label.anomaly).isEmpty
          then MainOutcome.noAnomalies
          else .anomalies ((detect_anomalies (feature_engineering (parse_logs logs))
              (1 / 10)).filter fun r => r.is_anomaly = Label.anomaly)) := by
      simp only [main, he, Bool.false_eq_true, if_false]
    refine ⟨hmain, ?_⟩
    rw [hmain]
    by_cases ha : ((detect_anomalies (feature_engineering (parse_logs logs)) (1 / 10)).filter
        fun r => r.is_anomaly = Label.anomaly).isEmpty = true
    · rw [if_pos ha]; rfl
    · rw [if_neg ha]; rfl

/-- C8 witness: an unreadable file and an all-malformed input, concretely. -/
theorem claim8_witness :
    (main "system_logs.txt" none = .fileError "system_logs.txt" ∧
      exitCode (main "system_logs.txt" none) = 1) ∧
    (parse_logs ["garbage"] = [] ∧
      (main "system_logs.txt" (some ["garbage"]) = .noValidEntries ∧
       exitCode (main "system_logs.txt" (some ["garbage"])) = 0)) :=
  ⟨claim8_exit.1 "system_logs.txt",
   by decide,
   claim8_exit.2.1 "system_logs.txt" ["garbage"] (by decide)⟩

/-- C3: detection is deterministic: two runs with identical rows,
identical contamination and the identical seed produce identical outputs
and identical scores, and the source fixes the seed to 42. -/
theorem claim3_determinism (df : List FRow) (c : ℚ) (s1 s2 : Nat) (h : s1 = s2) :
    detectAnomaliesSeeded s1 df c = detectAnomaliesSeeded s2 df c ∧
    (∀ i, iforestScore s1 (featureMatrix df) i = iforestScore s2 (featureMatrix df) i) ∧
    detect_anomalies df c = detectAnomaliesSeeded 42 df c := by
  subst h
  exact ⟨rfl, fun _ => rfl, rfl⟩

/-- C3 witness: two concrete runs at seed 42 coincide. -/
theorem claim3_witness :
    ((42 : Nat) = 42) ∧
    (detectAnomaliesSeeded 42 exFRows (1 / 10) = detectAnomaliesSeeded 42 exFRows (1 / 10) ∧
     (∀ i, iforestScore 42 (featureMatrix exFRows) i =
        iforestScore 42 (featureMatrix exFRows) i) ∧
     detect_anomalies exFRows (1 / 10) = detectAnomaliesSeeded 42 exFRows (1 / 10)) :=
  ⟨rfl, claim3_determinism exFRows (1 / 10) 42 42 rfl⟩

/-- C9: the detector is total on every nonempty input, including a single
vector and all-identical vectors: it returns one labeled row per input
row and no error path exists. -/
theorem claim9_total (df : List FRow) (c : ℚ) (_h : df ≠ []) :
    (detect_anomalies df c).length = df.length ∧
    (detect_anomalies df c).map ARow.frow = df ∧
    (∀ r ∈ detect_anomalies df c,
      r.is_anomaly = Label.anomaly ∨ r.is_anomaly = Label.normal) := by
  refine ⟨?_, ?_, ?_⟩
  · exact length_detectAnomaliesSeeded 42 df c
  · unfold detect_anomalies detectAnomaliesSeeded
    apply zipWith_map_left_eq _ _ (fun a b => rfl)
    rw [length_fit_predict, length_featureMatrix]
  · intro r _
    cases hr : r.is_anomaly
    · exact Or.inl rfl
    · exact Or.inr rfl

/-- C9 witness: a degenerate input of two identical vectors (hence also
fewer than the usual population) is processed without failure. -/
theorem claim9_witness :
    ([⟨exRecord "INFO" "aaaaa", 1, 5⟩, ⟨exRecord "INFO" "aaaaa", 1, 5⟩] : List FRow) ≠ [] ∧
    ((detect_anomalies [⟨exRecord "INFO" "aaaaa", 1, 5⟩,
        ⟨exRecord "INFO" "aaaaa", 1, 5⟩] (1 / 10)).length = 2 ∧
     (detect_anomalies [⟨exRecord "INFO" "aaaaa", 1, 5⟩,
        ⟨exRecord "INFO" "aaaaa", 1, 5⟩] (1 / 10)).map ARow.frow =
       [⟨exRecord "INFO" "aaaaa", 1, 5⟩, ⟨exRecord "INFO" "aaaaa", 1, 5⟩] ∧
     (∀ r ∈ detect_anomalies [⟨exRecord "INFO" "aaaaa", 1, 5⟩,
        ⟨exRecord "INFO" "aaaaa", 1, 5⟩] (1 / 10),
        r.is_anomaly = Label.anomaly ∨ r.is_anomaly = Label.normal)) :=
  ⟨by simp, claim9_total _ (1 / 10) (by simp)⟩

/-- C10: both `feature_engineering` and `detect_anomalies` leave the
parser-produced fields of every row unchanged and only add their new
columns: stripping the added columns returns the input rows exactly. -/
theorem claim10_frame (df : List LogRecord) (frs : List FRow) (c : ℚ) :
    (feature_engineering df).map FRow.record = df ∧
    ((feature_engineering df).map fun r => r.record.timestamp) = df.map LogRecord.timestamp ∧
    ((feature_engineering df).map fun r => r.record.level) = df.map LogRecord.level ∧
    ((feature_engineering df).map fun r => r.record.message) = df.map LogRecord.message ∧
    (detect_anomalies frs c).map ARow.frow = frs ∧
    ((detect_anomalies frs c).map fun r => r.frow.record) = frs.map FRow.record := by
  have h5 : (detect_anomalies frs c).map ARow.frow = frs := by
    unfold detect_anomalies detectAnomaliesSeeded
    apply zipWith_map_left_eq _ _ (fun a b => rfl)
    rw [length_fit_predict, length_featureMatrix]
  refine ⟨feature_engineering_map_record df, by simp [feature_engineering],
    by simp [feature_engineering], by simp [feature_engineering], h5, ?_⟩
  rw [show ((detect_anomalies frs c).map fun r => r.frow.record) =
      ((detect_anomalies frs c).map ARow.frow).map FRow.record by rw [List.map_map]; rfl, h5]

/-- C2: labeling follows the fixed-contamination thresholding policy:
exactly `round(contamination * n)` points are flagged Anomaly — a
deterministic function of the contamination and the population size — and
every flagged point has a score at least that of every unflagged point. -/
theorem claim2_thresholding (seed : Nat) (c : ℚ) (pts : List FVec)
    (hc0 : 0 < c) (hc1 : c < 1) :
    (fit_predict seed c pts).countP (fun p => p = -1) = kOf c pts.length ∧
    (∀ i j, i < pts.length → j < pts.length →
      (fit_predict seed c pts).getD i 1 = -1 →
      (fit_predict seed c pts).getD j 1 ≠ -1 →
      iforestScore seed pts j ≤ iforestScore seed pts i) := by
  have _hc := hc0
  refine ⟨fit_predict_countP seed c pts (kOf_le c pts.length hc1.le), ?_⟩
  intro i j hi hj hfi hfj
  exact fit_predict_flag_score seed c pts hi hj hfi hfj

/-- C2 witness: the thresholding contract instantiated on a concrete
two-point population at contamination one half. -/
theorem claim2_witness :
    (0 < (1 : ℚ) / 2 ∧ (1 : ℚ) / 2 < 1) ∧
    ((fit_predict 7 (1 / 2) [(1, 2), (3, 40)]).countP (fun p => p = -1) =
        kOf (1 / 2) ([(1, 2), (3, 40)] : List FVec).length ∧
     (∀ i j, i < ([(1, 2), (3, 40)] : List FVec).length →
        j < ([(1, 2), (3, 40)] : List FVec).length →
        (fit_predict 7 (1 / 2) [(1, 2), (3, 40)]).getD i 1 = -1 →
        (fit_predict 7 (1 / 2) [(1, 2), (3, 40)]).getD j 1 ≠ -1 →
        iforestScore 7 [(1, 2), (3, 40)] j ≤ iforestScore 7 [(1, 2), (3, 40)] i)) :=
  ⟨⟨by norm_num, by norm_num⟩,
   claim2_thresholding 7 (1 / 2) [(1, 2), (3, 40)] (by norm_num) (by norm_num)⟩

/-- C1 counterexample: at a concrete five-row input and contamination
one fifth, some returned row carries the numeric value `-1` in its
`anomaly` column, so the returned numeric values do not all satisfy
`0 < s ≤ 1`: the isolation scores are never part of the returned rows. -/
theorem claim1_counterexample :
    ¬ (∀ r ∈ detect_anomalies exFRows (1 / 5),
        (0 : ℤ) < r.anomaly ∧ r.anomaly ≤ 1) := by
  intro hall
  have hn : (featureMatrix exFRows).length = 5 := by decide
  have hk : kOf (1 / 5) (featureMatrix exFRows).length = 1 := by
    rw [hn]
    unfold kOf
    have h5 : (1 : ℚ) / 5 * ((5 : ℕ) : ℚ) = 1 := by norm_num
    rw [h5, round_one]
    rfl
  have hcount := fit_predict_countP 42 (1 / 5) (featureMatrix exFRows) (by omega)
  rw [hk] at hcount
  have hpos : 0 < (fit_predict 42 (1 / 5) (featureMatrix exFRows)).countP
      (fun p => p = -1) := by omega
  obtain ⟨p, hp, hpeq⟩ := List.countP_pos_iff.mp hpos
  simp only [decide_eq_true_eq] at hpeq
  have hmap : (detect_anomalies exFRows (1 / 5)).map ARow.anomaly =
      fit_predict 42 (1 / 5) (featureMatrix exFRows) := by
    unfold detect_anomalies detectAnomaliesSeeded
    apply zipWith_map_right_eq _ _ (fun a b => rfl)
    rw [length_fit_predict, length_featureMatrix]
  have hpmem : p ∈ (detect_anomalies exFRows (1 / 5)).map ARow.anomaly := by
    rw [hmap]; exact hp
  obtain ⟨r, hr, hrp⟩ := List.mem_map.mp hpmem
  have hlt := (hall r hr).1
  rw [hrp, hpeq] at hlt
  exact absurd hlt (by norm_num)

/-- C1 (amended): the detector returns one result per input vector, each
carrying a numeric anomaly indicator in `{-1, 1}` and a Normal/Anomaly
label agreeing with it; the isolation scores, which are computed
internally but not included in the returned rows, all satisfy
`0 < s ≤ 1`. -/
theorem claim1_amended (df : List FRow) (c : ℚ) (hc0 : 0 < c) (hc1 : c < 1) :
    (detect_anomalies df c).length = df.length ∧
    (∀ r ∈ detect_anomalies df c,
      (r.anomaly = -1 ∨ r.anomaly = 1) ∧
      (r.is_anomaly = Label.anomaly ↔ r.anomaly = -1)) ∧
    (∀ i, 0 < iforestScore 42 (featureMatrix df) i ∧
      iforestScore 42 (featureMatrix df) i ≤ 1) := by
  have _hc := And.intro hc0 hc1
  refine ⟨length_detectAnomaliesSeeded 42 df c, ?_,
    fun i => ⟨iforestScore_pos _ _ _, iforestScore_le_one _ _ _⟩⟩
  intro r hr
  unfold detect_anomalies detectAnomaliesSeeded at hr
  obtain ⟨a, _, p, hp, rfl⟩ := mem_zipWith_strong hr
  have hpv := mem_fit_predict _ _ _ p hp
  constructor
  · simpa using hpv
  · by_cases h : p = -1 <;> simp [h]

/-- C1 witness: the amended contract instantiated on the concrete
five-row input at the default contamination. -/
theorem claim1_witness :
    (0 < (1 : ℚ) / 10 ∧ (1 : ℚ) / 10 < 1) ∧
    ((detect_anomalies exFRows (1 / 10)).length = exFRows.length ∧
     (∀ r ∈ detect_anomalies exFRows (1 / 10),
        (r.anomaly = -1 ∨ r.anomaly = 1) ∧
        (r.is_anomaly = Label.anomaly ↔ r.anomaly = -1)) ∧
     (∀ i, 0 < iforestScore 42 (featureMatrix exFRows) i ∧
        iforestScore 42 (featureMatrix exFRows) i ≤ 1)) :=
  ⟨⟨by norm_num, by norm_num⟩,
   claim1_amended exFRows (1 / 10) (by norm_num) (by norm_num)⟩

end AIOps
